import Mathlib

/-!
Shallow embedding of `src/server.js` from the quote-geometry-app repository.

The server exposes `POST /api/analyze`.  The handler validates the `quotes`
field of the JSON body, truncates the array to its first two elements, and for
each retained element calls `analyzeQuote`, which builds a fixed two-message
prompt, calls the OpenAI chat-completion API, and parses the returned text as
JSON (strictly, then with a first-brace/last-brace extraction fallback).

JavaScript values that can appear in a JSON body are modelled by the `Json`
inductive below; numbers are modelled as exact rationals (the claims under
study never exercise binary floating-point rounding).  The external completion
API is modelled as a function from the user-message string to an outcome
(`ApiOutcome`), since the user message is the only part of the completion
request that varies between calls (model name, system message, max_tokens,
temperature and response_format are fixed literals in `analyzeQuote`).
-/

namespace QuoteApp

/-- A JSON value.  Objects keep their fields in insertion order, as
JavaScript objects do. -/
inductive Json where
  | null : Json
  | bool (b : Bool) : Json
  | num (q : Rat) : Json
  | str (s : String) : Json
  | arr (elems : List Json) : Json
  | obj (fields : List (String × Json)) : Json

/-- Property lookup on a JavaScript object: `body.quotes` in the handler.
Returns `none` (modelling `undefined`) when the key is absent or the value is
not an object. -/
def Json.getField : Json → String → Option Json
  | .obj fields, key => (List.find? (fun f => f.1 == key) fields).map (fun f => f.2)
  | _, _ => none

/-- Model of `Array.isArray` from the handler's validation check. -/
def Json.isArray : Json → Bool
  | .arr _ => true
  | _ => false

/-- The element list of an array value (`quotes` once known to be an array);
`[]` for non-arrays, which the handler never reaches thanks to the
`Array.isArray` test. -/
def Json.elems : Json → List Json
  | .arr xs => xs
  | _ => []

/-- JavaScript truthiness of a JSON value, as used by `if (!quotes)` and
`if (analysis)` in the handler: `null`, `false`, `0` and `""` are falsy,
every array and object (even empty) is truthy. -/
def jsTruthy : Json → Bool
  | .null => false
  | .bool b => b
  | .num q => !(q == 0)
  | .str s => !(s == "")
  | .arr _ => true
  | .obj _ => true

/-! ### A model of `JSON.parse`

`JSON.parse` is the JavaScript built-in strict JSON parser (RFC 8259 grammar:
insignificant whitespace around tokens, `null` / `true` / `false`, numbers
without leading zeros or bare fraction parts, strings with the standard escape
set, arrays and objects).  Failure (`JSON.parse` throwing) is modelled as
`none`.  Recursion is bounded by explicit fuel; the fuel supplied by
`jsonParse` exceeds any possible nesting depth of the input. -/

/-- JSON insignificant whitespace: space, tab, line feed, carriage return. -/
def jsonWsChar (c : Char) : Bool :=
  [' ', '\t', '\n', '\r'].contains c

/-- Drop leading JSON whitespace. -/
def skipWs : List Char → List Char
  | [] => []
  | c :: cs => if jsonWsChar c then skipWs cs else c :: cs

/-- Numeric value of a decimal digit character (code point minus 48). -/
def digitVal (c : Char) : Nat := c.toNat - 48

/-- Numeric value of a hexadecimal digit character, if it is one, written over
code points (48–57 are the digits, 97–102 lower-case a–f, 65–70 upper-case
A–F). -/
def hexVal (c : Char) : Option Nat :=
  let n := c.toNat
  if 47 < n && n < 58 then some (n - 48)
  else if 96 < n && n < 103 then some (n - 87)
  else if 64 < n && n < 71 then some (n - 55)
  else none

/-- Body of a JSON string after the opening quote: returns the decoded
characters and the input after the closing quote.  Raw control characters are
rejected; the standard escapes and `\uXXXX` are decoded. -/
def parseStringBody : List Char → Option (List Char × List Char)
  | [] => none
  | '"' :: rest => some ([], rest)
  | '\\' :: '"' :: rest => (parseStringBody rest).map (fun p => ('"' :: p.1, p.2))
  | '\\' :: '\\' :: rest => (parseStringBody rest).map (fun p => ('\\' :: p.1, p.2))
  | '\\' :: '/' :: rest => (parseStringBody rest).map (fun p => ('/' :: p.1, p.2))
  | '\\' :: 'b' :: rest => (parseStringBody rest).map (fun p => (Char.ofNat 8 :: p.1, p.2))
  | '\\' :: 'f' :: rest => (parseStringBody rest).map (fun p => (Char.ofNat 12 :: p.1, p.2))
  | '\\' :: 'n' :: rest => (parseStringBody rest).map (fun p => ('\n' :: p.1, p.2))
  | '\\' :: 'r' :: rest => (parseStringBody rest).map (fun p => ('\r' :: p.1, p.2))
  | '\\' :: 't' :: rest => (parseStringBody rest).map (fun p => ('\t' :: p.1, p.2))
  | '\\' :: 'u' :: h1 :: h2 :: h3 :: h4 :: rest =>
      match hexVal h1, hexVal h2, hexVal h3, hexVal h4 with
      | some a1, some a2, some a3, some a4 =>
          (parseStringBody rest).map
            (fun p => (Char.ofNat (a1 * 4096 + a2 * 256 + a3 * 16 + a4) :: p.1, p.2))
      | _, _, _, _ => none
  | '\\' :: _ => none
  | c :: rest =>
      if c.toNat < 32 then none
      else (parseStringBody rest).map (fun p => (c :: p.1, p.2))

/-- Split a leading run of decimal digits from the input. -/
def parseDigits : List Char → List Char × List Char
  | [] => ([], [])
  | c :: cs =>
      if c.isDigit then
        let p := parseDigits cs
        (c :: p.1, p.2)
      else ([], c :: cs)

/-- Value of a digit run. -/
def digitsToNat (ds : List Char) : Nat :=
  ds.foldl (fun n c => n * 10 + digitVal c) 0

/-- Optional fraction part: `.` followed by at least one digit, or nothing. -/
def parseFrac : List Char → Option (List Char × List Char)
  | '.' :: rest =>
      let p := parseDigits rest
      if p.1.isEmpty then none else some p
  | cs => some ([], cs)

/-- Optional exponent part: `e`/`E`, optional sign, at least one digit. -/
def parseExp : List Char → Option (Int × List Char)
  | c :: rest =>
      if c == 'e' || c == 'E' then
        let sp : Int × List Char :=
          match rest with
          | '+' :: rr => (1, rr)
          | '-' :: rr => (-1, rr)
          | rr => (1, rr)
        let p := parseDigits sp.2
        if p.1.isEmpty then none
        else some (sp.1 * (digitsToNat p.1 : Int), p.2)
      else some (0, c :: rest)
  | [] => some (0, [])

/-- JSON number: optional minus, integer part without leading zeros, optional
fraction and exponent.  The exact rational value is returned. -/
def parseNumber (cs : List Char) : Option (Rat × List Char) :=
  let neg : Bool := cs.head? == some '-'
  match if neg then cs.drop 1 else cs with
  | [] => none
  | c :: r =>
      if !c.isDigit then none
      else if c == '0' && (r.head?.map Char.isDigit).getD false then none
      else
        let ip : List Char × List Char :=
          if c == '0' then ([c], r) else parseDigits (c :: r)
        match parseFrac ip.2 with
        | none => none
        | some (fracDigits, rest2) =>
            match parseExp rest2 with
            | none => none
            | some (expVal, rest3) =>
                let mantissa : Int := (digitsToNat (ip.1 ++ fracDigits) : Int)
                let signedM : Int := if neg then -mantissa else mantissa
                let e : Int := expVal - (fracDigits.length : Int)
                let value : Rat :=
                  if 0 ≤ e then (signedM : Rat) * (10 : Rat) ^ e.toNat
                  else (signedM : Rat) / (10 : Rat) ^ (-e).toNat
                some (value, rest3)

mutual

/-- One JSON value, fuel-bounded. -/
def parseVal : Nat → List Char → Option (Json × List Char)
  | 0, _ => none
  | fuel + 1, cs =>
      match skipWs cs with
      | 'n' :: kw =>
          match kw with
          | 'u' :: 'l' :: 'l' :: rest => some (.null, rest)
          | _ => none
      | 't' :: kw =>
          match kw with
          | 'r' :: 'u' :: 'e' :: rest => some (.bool true, rest)
          | _ => none
      | 'f' :: kw =>
          match kw with
          | 'a' :: 'l' :: 's' :: 'e' :: rest => some (.bool false, rest)
          | _ => none
      | '"' :: rest => (parseStringBody rest).map (fun p => (.str (String.mk p.1), p.2))
      | '\x7b' :: rest => (parseObjBody fuel rest).map (fun p => (.obj p.1, p.2))
      | '[' :: rest => (parseArrBody fuel rest).map (fun p => (.arr p.1, p.2))
      | cs2 => (parseNumber cs2).map (fun p => (.num p.1, p.2))

/-- Object body after the opening brace: empty object or member list. -/
def parseObjBody : Nat → List Char → Option (List (String × Json) × List Char)
  | 0, _ => none
  | fuel + 1, cs =>
      match skipWs cs with
      | '\x7d' :: rest => some ([], rest)
      | _ => parseMembers fuel cs

/-- Non-empty object member list: `"key" : value` then `,` or `}`. -/
def parseMembers : Nat → List Char → Option (List (String × Json) × List Char)
  | 0, _ => none
  | fuel + 1, cs =>
      match skipWs cs with
      | '"' :: rest =>
          match parseStringBody rest with
          | none => none
          | some (key, rest1) =>
              match skipWs rest1 with
              | ':' :: rest2 =>
                  match parseVal fuel rest2 with
                  | none => none
                  | some (v, rest3) =>
                      match skipWs rest3 with
                      | ',' :: rest4 =>
                          match parseMembers fuel rest4 with
                          | none => none
                          | some (fs, rest5) => some ((String.mk key, v) :: fs, rest5)
                      | '\x7d' :: rest4 => some ([(String.mk key, v)], rest4)
                      | _ => none
              | _ => none
      | _ => none

/-- Array body after the opening bracket: empty array or element list. -/
def parseArrBody : Nat → List Char → Option (List Json × List Char)
  | 0, _ => none
  | fuel + 1, cs =>
      match skipWs cs with
      | ']' :: rest => some ([], rest)
      | _ => parseElems fuel cs

/-- Non-empty array element list: value then `,` or `]`. -/
def parseElems : Nat → List Char → Option (List Json × List Char)
  | 0, _ => none
  | fuel + 1, cs =>
      match parseVal fuel cs with
      | none => none
      | some (v, rest1) =>
          match skipWs rest1 with
          | ',' :: rest2 =>
              match parseElems fuel rest2 with
              | none => none
              | some (es, rest3) => some (v :: es, rest3)
          | ']' :: rest2 => some ([v], rest2)
          | _ => none

end

/-- Model of `JSON.parse(s)`: parse one value, allow trailing whitespace,
reject any other trailing input.  `none` models the built-in throwing a
`SyntaxError`.  The fuel bound `4 * length + 8` exceeds the recursion depth of
any input of this length, so it never causes a spurious failure. -/
def jsonParse (s : String) : Option Json :=
  match parseVal (4 * s.toList.length + 8) s.toList with
  | some (v, rest) => if (skipWs rest).isEmpty then some v else none
  | none => none

/-! ### String coercion and the prompt

The handler interpolates each array element into a template literal, which
applies JavaScript string coercion.  `ratToString` models `Number` to string
conversion in its plain-decimal regime (the source only ever feeds parsed JSON
numbers through it, and no claim depends on the exotic exponent-notation
regimes of the built-in). -/

/-- Search upward from `k` for an exponent with `d ∣ 10 ^ k`, bounded by the
remaining fuel. -/
def findPow10Aux (d : Nat) : Nat → Nat → Option Nat
  | _, 0 => none
  | k, fuel + 1 => if 10 ^ k % d == 0 then some k else findPow10Aux d (k + 1) fuel

/-- Smallest exponent `k` with `d ∣ 10 ^ k`, for denominators of
decimal-representable rationals.  The search bound is far above the largest
exponent a double-precision value can require. -/
def findPow10 (d : Nat) : Option Nat :=
  findPow10Aux d 0 2200

/-- Left-pad a digit string with zeros to width `k`. -/
def padZeros (k : Nat) (s : String) : String :=
  String.mk (List.replicate (k - s.length) '0') ++ s

/-- JavaScript number-to-string conversion for a rational value: integers
print without a point, other decimal-representable values print in plain
decimal notation with no trailing zeros.  Rationals outside that regime (which
cannot arise from parsed JSON doubles) fall back to a fraction rendering. -/
def ratToString (q : Rat) : String :=
  if q.den == 1 then toString q.num
  else
    match findPow10 q.den with
    | some k =>
        let scaled : Nat := (q.num.natAbs * 10 ^ k) / q.den
        let sign : String := if q.num < 0 then "-" else ""
        sign ++ toString (scaled / 10 ^ k) ++ "." ++ padZeros k (toString (scaled % 10 ^ k))
    | none => toString q.num ++ "/" ++ toString q.den

mutual

/-- JavaScript string coercion of a JSON value, as performed by the template
literal in `analyzeQuote`'s user message: strings pass through, `null`,
booleans and numbers print canonically, arrays join their coerced elements
with commas (with `null` elements rendering as the empty string), and plain
objects render as `[object Object]`. -/
def jsToString : Json → String
  | .null => "null"
  | .bool b => if b then "true" else "false"
  | .num q => ratToString q
  | .str s => s
  | .arr xs => arrJoin xs
  | .obj _ => "[object Object]"

/-- Model of `Array.prototype.join` with separator `","` over coerced
elements, as invoked by the array-to-string coercion. -/
def arrJoin : List Json → String
  | [] => ""
  | Json.null :: [] => ""
  | x :: [] => jsToString x
  | Json.null :: x :: xs => "," ++ arrJoin (x :: xs)
  | y :: x :: xs => jsToString y ++ "," ++ arrJoin (x :: xs)

end

/-- The fixed system message of the prompt (line 44 of `server.js`). -/
def systemMessage : String :=
  "You are an assistant that analyzes famous quotes. For each quote you will produce a JSON object with the following keys: \"sentiment\", \"intensity\", \"complexity\", \"agency\" (all numbers between 0 and 1), and \"themes\" (an array of exactly three concise one-word themes). Output only valid JSON. Do not include any explanatory text."

/-- The user message of the prompt: the template literal of line 48 of
`server.js`, with the quote string-coerced into it. -/
def userMessage (quote : Json) : String :=
  "Analyze the following quote and return the JSON object. Quote: \"" ++ jsToString quote ++ "\""

/-! ### The analyzer and the request handler -/

/-- Outcome of one call to the completion API: the promise rejects (network or
API error), or it resolves and `response.choices?.[0]?.message?.content` is
the given string.  A missing/empty content field is modelled as `ok ""`, which
is exactly the set of cases in which `if (!content)` fires in the source. -/
inductive ApiOutcome where
  | err : ApiOutcome
  | ok (content : String) : ApiOutcome

/-- Model of `String.prototype.indexOf` restricted to a single character:
index of the first occurrence, `none` modelling `-1`. -/
def firstIndexOf : List Char → Char → Option Nat
  | [], _ => none
  | c :: cs, t => if c == t then some 0 else (firstIndexOf cs t).map (· + 1)

/-- Model of `String.prototype.lastIndexOf` restricted to a single character:
index of the last occurrence, `none` modelling `-1`. -/
def lastIndexOf (cs : List Char) (t : Char) : Option Nat :=
  match firstIndexOf cs.reverse t with
  | some i => some (cs.length - 1 - i)
  | none => none

/-- The fallback extraction of `analyzeQuote` (lines 69–76 of `server.js`):
when `firstBrace >= 0 && lastBrace > firstBrace`, the substring from the first
`\x7b` to the last `\x7d` inclusive (`content.substring(firstBrace, lastBrace
+ 1)`); `none` when the guard fails, in which case the source re-throws the
strict-parse error. -/
def extractBraces (content : String) : Option String :=
  match firstIndexOf content.toList '\x7b', lastIndexOf content.toList '\x7d' with
  | some firstBrace, some lastBrace =>
      if firstBrace < lastBrace then
        some (String.mk ((content.toList.drop firstBrace).take (lastBrace + 1 - firstBrace)))
      else none
  | _, _ => none

/-- The analyzer (lines 36–83 of `server.js`): build the two-message prompt,
call the completion API, and parse the returned text, strictly first and then
through the brace-extraction fallback.  Every error path of the source
(promise rejection, falsy content, both parses failing) is caught by the
surrounding `try`/`catch` and returns `null`, modelled as `none`. -/
def analyzeQuote (api : String → ApiOutcome) (quote : Json) : Option Json :=
  match api (userMessage quote) with
  | .err => none
  | .ok content =>
      if content == "" then none
      else
        match jsonParse content with
        | some parsed => some parsed
        | none =>
            match extractBraces content with
            | some sub => jsonParse sub
            | none => none

/-- The fixed per-item failure message of the handler. -/
def failedMsg : String := "Failed to analyze quote"

/-- One iteration of the handler's result loop (lines 94–101 of `server.js`):
`if (analysis)` pushes the success shape, the `else` branch the failure shape.
Note the truthiness test: a parsed `null`, `false`, `0` or `""` takes the
failure branch even though parsing succeeded. -/
def resultEntry (api : String → ApiOutcome) (quote : Json) : Json :=
  match analyzeQuote api quote with
  | some analysis =>
      if jsTruthy analysis then Json.obj [("quote", quote), ("analysis", analysis)]
      else Json.obj [("quote", quote), ("error", Json.str failedMsg)]
  | none => Json.obj [("quote", quote), ("error", Json.str failedMsg)]

/-- An HTTP response: status code and JSON body.  `res.json(...)` leaves the
status at 200; `res.status(400).json(...)` sets it to 400. -/
structure Response where
  status : Nat
  body : Json

/-- The 400 response of the validation branch. -/
def badRequestResponse : Response :=
  { status := 400, body := Json.obj [("error", Json.str "Please provide an array of quotes.")] }

/-- The `POST /api/analyze` handler (lines 86–103 of `server.js`).  Returns
the HTTP response together with the list of quotes that were passed to
`analyzeQuote` (the iteration domain of the result loop), so that "no quote is
processed" and "exactly the first two are processed" are directly statable.
The validation guard is the source's
`!quotes || !Array.isArray(quotes) || quotes.length === 0`. -/
def postAnalyze (api : String → ApiOutcome) (body : Json) : Response × List Json :=
  match Json.getField body "quotes" with
  | none => (badRequestResponse, [])
  | some quotes =>
      if !jsTruthy quotes || !quotes.isArray || quotes.elems.length == 0 then
        (badRequestResponse, [])
      else
        let limitedQuotes := quotes.elems.take 2
        ({ status := 200,
           body := Json.obj [("results", Json.arr (limitedQuotes.map (resultEntry api)))] },
         limitedQuotes)

/-- A request body whose `quotes` field is the given array, the shape the
endpoint documents. -/
def mkRequest (quotes : List Json) : Json :=
  Json.obj [("quotes", Json.arr quotes)]

/-- The exact completion text of the spec's strict-parse test vector. -/
def wellFormedText : String :=
  "\x7b\"sentiment\":0.8,\"intensity\":0.6,\"complexity\":0.4,\"agency\":0.7,\"themes\":[\"love\",\"loss\",\"hope\"]\x7d"

/-- The analysis object that `JSON.parse` produces from `wellFormedText`. -/
def wellFormedAnalysis : Json :=
  Json.obj [("sentiment", Json.num 0.8), ("intensity", Json.num 0.6),
    ("complexity", Json.num 0.4), ("agency", Json.num 0.7),
    ("themes", Json.arr [Json.str "love", Json.str "loss", Json.str "hope"])]

/-! ### Helper lemmas -/

/-- Both result shapes carry the input quote as their first field. -/
theorem resultEntry_getField_quote (api : String → ApiOutcome) (q : Json) :
    Json.getField (resultEntry api q) "quote" = some q := by
  unfold resultEntry
  split
  · split
    · rfl
    · rfl
  · rfl

/-- A result entry depends on the API stub only through its answer on this
quote's user message. -/
theorem resultEntry_congr (api1 api2 : String → ApiOutcome) (q : Json)
    (h : api1 (userMessage q) = api2 (userMessage q)) :
    resultEntry api1 q = resultEntry api2 q := by
  unfold resultEntry analyzeQuote
  rw [h]

/-- On a valid request (a non-empty `quotes` array) the handler answers 200
with the mapped result entries of the first two quotes, and the loop processes
exactly those quotes. -/
theorem postAnalyze_valid (api : String → ApiOutcome) (body : Json) (vs : List Json)
    (hq : Json.getField body "quotes" = some (Json.arr vs)) (hne : vs ≠ []) :
    postAnalyze api body =
      ({ status := 200,
         body := Json.obj [("results", Json.arr ((vs.take 2).map (resultEntry api)))] },
       vs.take 2) := by
  obtain ⟨a, tl, rfl⟩ := List.exists_cons_of_ne_nil hne
  unfold postAnalyze
  rw [hq]
  rfl

/-- The request built by `mkRequest` looks up to its own quote array. -/
theorem getField_mkRequest (vs : List Json) :
    Json.getField (mkRequest vs) "quotes" = some (Json.arr vs) := rfl

/-- Unfolding `String.mk` against `String.toList`. -/
theorem toList_mk (cs : List Char) : (String.mk cs).toList = cs := rfl

/-- A successful `firstIndexOf` points at an occurrence of the character. -/
theorem firstIndexOf_drop (cs : List Char) (t : Char) :
    ∀ i, firstIndexOf cs t = some i → ∃ rest, cs.drop i = t :: rest := by
  induction cs with
  | nil => intro i h; exact Option.noConfusion h
  | cons c cs ih =>
      intro i h
      rw [firstIndexOf] at h
      by_cases hc : (c == t) = true
      · rw [if_pos hc] at h
        injection h with h0
        subst h0
        exact ⟨cs, by rw [List.drop_zero, eq_of_beq hc]⟩
      · rw [if_neg hc] at h
        rcases Option.map_eq_some'.mp h with ⟨j, hj, hji⟩
        subst hji
        rcases ih j hj with ⟨rest, hrest⟩
        exact ⟨rest, by rw [List.drop_succ_cons]; exact hrest⟩

/-- When the input (after leading whitespace) starts with an opening brace,
a successful `parseVal` can only produce an object. -/
theorem parseVal_obj_of_brace (fuel : Nat) (cs cs2 rest : List Char) (v : Json)
    (h : parseVal fuel cs = some (v, rest)) (hw : skipWs cs = '\x7b' :: cs2) :
    ∃ fs, v = Json.obj fs := by
  match fuel with
  | 0 => rw [parseVal] at h; exact Option.noConfusion h
  | fuel + 1 =>
      rw [parseVal, hw] at h
      have h2 : (parseObjBody fuel cs2).map (fun p => (Json.obj p.1, p.2)) = some (v, rest) := h
      rcases Option.map_eq_some'.mp h2 with ⟨p, hp, hpair⟩
      injection hpair with hv hr
      exact ⟨p.1, hv.symm⟩

/-- A `JSON.parse` of a text whose first character is an opening brace yields
an object. -/
theorem jsonParse_obj_of_brace (s : String) (v : Json) (cs2 : List Char)
    (h : jsonParse s = some v) (hh : s.toList = '\x7b' :: cs2) :
    ∃ fs, v = Json.obj fs := by
  unfold jsonParse at h
  rw [hh] at h
  cases hp : parseVal (4 * ('\x7b' :: cs2).length + 8) ('\x7b' :: cs2) with
  | none => rw [hp] at h; exact Option.noConfusion h
  | some p =>
      rw [hp] at h
      have h2 : (if (skipWs p.2).isEmpty then some p.1 else none) = some v := h
      obtain ⟨fs, hfs⟩ := parseVal_obj_of_brace _ _ cs2 p.2 p.1 (by rw [hp]) (by with_unfolding_all rfl)
      split at h2
      · injection h2 with hv; exact ⟨fs, hv ▸ hfs⟩
      · exact Option.noConfusion h2

/-- The fallback-extracted substring starts with the opening brace it was cut
at. -/
theorem extractBraces_toList (t sub : String) (h : extractBraces t = some sub) :
    ∃ cs2, sub.toList = '\x7b' :: cs2 := by
  unfold extractBraces at h
  split at h
  · rename_i f l heq1 heq2
    split at h
    · rename_i hfl
      injection h with hsub
      obtain ⟨rest, hrest⟩ := firstIndexOf_drop _ _ _ heq1
      refine ⟨rest.take (l - f), ?_⟩
      rw [← hsub, toList_mk, show l + 1 - f = (l - f) + 1 by omega, hrest, List.take_succ_cons]
    · exact Option.noConfusion h
  · exact Option.noConfusion h

/-- Element `i` of the mapped, truncated result list is the entry of input
quote `i`, for every index below `min N 2`. -/
theorem map_take_resultEntry_getD (api : String → ApiOutcome) (vs : List Json) (i : Nat)
    (hi : i < min vs.length 2) :
    ((vs.take 2).map (resultEntry api)).getD i Json.null
      = resultEntry api (vs.getD i Json.null) := by
  have h2 : i < 2 := lt_of_lt_of_le hi (Nat.min_le_right _ _)
  have hv : i < vs.length := lt_of_lt_of_le hi (Nat.min_le_left _ _)
  rw [List.getD_eq_getElem?_getD, List.getD_eq_getElem?_getD, List.getElem?_map,
    List.getElem?_take_of_lt h2, List.getElem?_eq_getElem hv]
  rfl

/-! ### Claim C1 -/

/-- C1.  Whenever the body's `quotes` field is absent, not an array, or an
empty array, the handler responds 400 with the fixed error body, and no quote
reaches the analyzer (the processed-quote list is empty, for every possible
behavior of the completion API). -/
theorem claim1_invalid_quotes_rejected (api : String → ApiOutcome) (body : Json)
    (h : Json.getField body "quotes" = none
      ∨ (∃ v, Json.getField body "quotes" = some v ∧ v.isArray = false)
      ∨ Json.getField body "quotes" = some (Json.arr [])) :
    (postAnalyze api body).1.status = 400
      ∧ (postAnalyze api body).1.body
          = Json.obj [("error", Json.str "Please provide an array of quotes.")]
      ∧ (postAnalyze api body).2 = [] := by
  have key : postAnalyze api body = (badRequestResponse, []) := by
    unfold postAnalyze
    rcases h with h | ⟨v, hv, hva⟩ | h
    · rw [h]
    · have hcond : (!jsTruthy v || !v.isArray || v.elems.length == 0) = true := by
        rw [hva]; simp
      simp only [hv, hcond]
      rfl
    · rw [h]
      rfl
  rw [key]
  exact ⟨rfl, rfl, rfl⟩

/-- Witness for C1 at a concrete request with no `quotes` field. -/
theorem claim1_invalid_quotes_rejected_witness :
    (postAnalyze (fun _ => ApiOutcome.err) (Json.obj [])).1.status = 400
      ∧ (postAnalyze (fun _ => ApiOutcome.err) (Json.obj [])).1.body
          = Json.obj [("error", Json.str "Please provide an array of quotes.")]
      ∧ (postAnalyze (fun _ => ApiOutcome.err) (Json.obj [])).2 = [] :=
  claim1_invalid_quotes_rejected (fun _ => ApiOutcome.err) (Json.obj []) (Or.inl rfl)

/-! ### Claim C2 -/

/-- C2.  On a non-empty `quotes` array of length N the handler answers 200,
the `results` array has length `min N 2`, exactly `min N 2` quotes are
processed, and elements beyond the first two are ignored: the request behaves
identically to the request truncated to its first two quotes. -/
theorem claim2_batch_capped_at_two (api : String → ApiOutcome) (body : Json) (vs : List Json)
    (hq : Json.getField body "quotes" = some (Json.arr vs)) (hne : vs ≠ []) :
    (postAnalyze api body).1.status = 200
      ∧ (∃ rs, (postAnalyze api body).1.body = Json.obj [("results", Json.arr rs)]
          ∧ rs.length = min vs.length 2)
      ∧ (postAnalyze api body).2.length = min vs.length 2
      ∧ postAnalyze api (mkRequest vs) = postAnalyze api (mkRequest (vs.take 2)) := by
  have key := postAnalyze_valid api body vs hq hne
  have hlen : (vs.take 2).length = min vs.length 2 := by
    rw [List.length_take, Nat.min_comm]
  refine ⟨by rw [key], ⟨(vs.take 2).map (resultEntry api), by rw [key], ?_⟩, by rw [key]; exact hlen, ?_⟩
  · rw [List.length_map]; exact hlen
  · have hne2 : vs.take 2 ≠ [] := by
      intro h
      rcases List.take_eq_nil_iff.mp h with h2 | h2
      · exact absurd h2 (by decide)
      · exact hne h2
    rw [postAnalyze_valid api (mkRequest vs) vs (getField_mkRequest vs) hne,
      postAnalyze_valid api (mkRequest (vs.take 2)) (vs.take 2) (getField_mkRequest _) hne2]
    simp [List.take_take]

/-- Witness for C2 on a three-quote request against the always-failing API. -/
theorem claim2_batch_capped_at_two_witness :
    (postAnalyze (fun _ => ApiOutcome.err) (mkRequest [Json.str "a", Json.str "b", Json.str "c"])).1.status = 200
      ∧ (∃ rs,
          (postAnalyze (fun _ => ApiOutcome.err) (mkRequest [Json.str "a", Json.str "b", Json.str "c"])).1.body
            = Json.obj [("results", Json.arr rs)]
          ∧ rs.length = min [Json.str "a", Json.str "b", Json.str "c"].length 2)
      ∧ (postAnalyze (fun _ => ApiOutcome.err) (mkRequest [Json.str "a", Json.str "b", Json.str "c"])).2.length
          = min [Json.str "a", Json.str "b", Json.str "c"].length 2
      ∧ postAnalyze (fun _ => ApiOutcome.err) (mkRequest [Json.str "a", Json.str "b", Json.str "c"])
          = postAnalyze (fun _ => ApiOutcome.err)
              (mkRequest ([Json.str "a", Json.str "b", Json.str "c"].take 2)) :=
  claim2_batch_capped_at_two (fun _ => ApiOutcome.err) (mkRequest [Json.str "a", Json.str "b", Json.str "c"])
    [Json.str "a", Json.str "b", Json.str "c"] rfl (by simp)

/-! ### Claim C9 -/

/-- C9.  The handler is deterministic: against API stubs with identical
behavior, the same request body always produces the identical response
(results array included) and the identical processed-quote list. -/
theorem claim9_deterministic (api1 api2 : String → ApiOutcome) (body : Json)
    (h : ∀ s, api1 s = api2 s) :
    postAnalyze api1 body = postAnalyze api2 body := by
  have : api1 = api2 := funext h
  rw [this]

/-- Witness for C9: two runs of a concrete stub on a concrete request. -/
theorem claim9_deterministic_witness :
    postAnalyze (fun _ => ApiOutcome.ok "true") (mkRequest [Json.str "a"])
      = postAnalyze (fun _ => ApiOutcome.ok "true") (mkRequest [Json.str "a"]) :=
  claim9_deterministic (fun _ => ApiOutcome.ok "true") (fun _ => ApiOutcome.ok "true")
    (mkRequest [Json.str "a"]) (fun _ => rfl)

/-! ### Claim C4 -/

/-- C4.  When the completion API answers an item with the exact well-formed
JSON text of the spec's test vector, strict parsing succeeds, the parsed
object is returned unchanged by the analyzer, and the item's result entry is
the success shape carrying exactly that object. -/
theorem claim4_strict_parse_success (api : String → ApiOutcome) (q : Json)
    (h : api (userMessage q) = ApiOutcome.ok wellFormedText) :
    analyzeQuote api q = some wellFormedAnalysis
      ∧ resultEntry api q = Json.obj [("quote", q), ("analysis", wellFormedAnalysis)] := by
  have hA : analyzeQuote api q = some wellFormedAnalysis := by
    unfold analyzeQuote
    rw [h]
    with_unfolding_all rfl
  refine ⟨hA, ?_⟩
  unfold resultEntry
  rw [hA]
  with_unfolding_all rfl

/-- Witness for C4 at a concrete quote and the constant stub. -/
theorem claim4_strict_parse_success_witness :
    analyzeQuote (fun _ => ApiOutcome.ok wellFormedText) (Json.str "s") = some wellFormedAnalysis
      ∧ resultEntry (fun _ => ApiOutcome.ok wellFormedText) (Json.str "s")
          = Json.obj [("quote", Json.str "s"), ("analysis", wellFormedAnalysis)] :=
  claim4_strict_parse_success (fun _ => ApiOutcome.ok wellFormedText) (Json.str "s") rfl

/-! ### Claim C7 -/

/-- C7.  A rejected completion call (or one that yields no content) makes
that item's entry the failure shape; the overall response is nevertheless 200
with a well-formed `results` body for every API behavior, and each item's
entry depends only on the API's answer for that item, so a failure of one item
leaves the others untouched. -/
theorem claim7_api_failure_isolated (api api2 : String → ApiOutcome) (q body : Json)
    (vs : List Json)
    (hq : Json.getField body "quotes" = some (Json.arr vs)) (hne : vs ≠ []) :
    ((postAnalyze api body).1.status = 200
      ∧ (postAnalyze api body).1.body
          = Json.obj [("results", Json.arr ((vs.take 2).map (resultEntry api)))])
    ∧ (api (userMessage q) = ApiOutcome.err ∨ api (userMessage q) = ApiOutcome.ok "" →
        resultEntry api q = Json.obj [("quote", q), ("error", Json.str failedMsg)])
    ∧ (api (userMessage q) = api2 (userMessage q) →
        resultEntry api q = resultEntry api2 q) := by
  have key := postAnalyze_valid api body vs hq hne
  refine ⟨⟨by rw [key], by rw [key]⟩, ?_, fun h => resultEntry_congr api api2 q h⟩
  intro hfail
  unfold resultEntry analyzeQuote
  rcases hfail with h | h
  · rw [h]
  · rw [h]; with_unfolding_all rfl

/-- Witness for C7: a two-quote request against the always-rejecting stub. -/
theorem claim7_api_failure_isolated_witness :
    ((postAnalyze (fun _ => ApiOutcome.err) (mkRequest [Json.str "a", Json.str "b"])).1.status = 200
      ∧ (postAnalyze (fun _ => ApiOutcome.err) (mkRequest [Json.str "a", Json.str "b"])).1.body
          = Json.obj [("results", Json.arr
              (([Json.str "a", Json.str "b"].take 2).map (resultEntry (fun _ => ApiOutcome.err))))])
    ∧ ((fun (_ : String) => ApiOutcome.err) (userMessage (Json.str "a")) = ApiOutcome.err
        ∨ (fun (_ : String) => ApiOutcome.err) (userMessage (Json.str "a")) = ApiOutcome.ok "" →
        resultEntry (fun _ => ApiOutcome.err) (Json.str "a")
          = Json.obj [("quote", Json.str "a"), ("error", Json.str failedMsg)])
    ∧ ((fun (_ : String) => ApiOutcome.err) (userMessage (Json.str "a"))
          = (fun (_ : String) => ApiOutcome.err) (userMessage (Json.str "a")) →
        resultEntry (fun _ => ApiOutcome.err) (Json.str "a")
          = resultEntry (fun _ => ApiOutcome.err) (Json.str "a")) :=
  claim7_api_failure_isolated (fun _ => ApiOutcome.err) (fun _ => ApiOutcome.err)
    (Json.str "a") (mkRequest [Json.str "a", Json.str "b"]) [Json.str "a", Json.str "b"]
    rfl (by simp)

/-! ### Claim C5 -/

/-- C5.  When strict parsing of the completion text fails but the text has a
first `\x7b` strictly before its last `\x7d` and the inclusive substring
between them is valid JSON, the analyzer returns exactly the object parsed
from that substring and the item's entry is the success shape carrying it. -/
theorem claim5_brace_extraction_fallback (api : String → ApiOutcome) (q : Json)
    (t sub : String) (v : Json)
    (happi : api (userMessage q) = ApiOutcome.ok t)
    (hstrict : jsonParse t = none)
    (hext : extractBraces t = some sub)
    (hsub : jsonParse sub = some v) :
    analyzeQuote api q = some v
      ∧ resultEntry api q = Json.obj [("quote", q), ("analysis", v)] := by
  have hne : (t == "") = false := by
    cases ht : (t == "") with
    | false => rfl
    | true =>
        rw [eq_of_beq ht] at hext
        exact Option.noConfusion hext
  have hA : analyzeQuote api q = some v := by
    unfold analyzeQuote
    rw [happi]
    simp only [hne, Bool.false_eq_true, if_false, hstrict, hext]
    exact hsub
  obtain ⟨cs2, hcs⟩ := extractBraces_toList t sub hext
  obtain ⟨fs, hfs⟩ := jsonParse_obj_of_brace sub v cs2 hsub hcs
  refine ⟨hA, ?_⟩
  unfold resultEntry
  rw [hA, hfs]
  rfl

/-- Witness for C5 on the commentary-wrapped text of the spec's example. -/
theorem claim5_brace_extraction_fallback_witness :
    analyzeQuote (fun _ => ApiOutcome.ok "Sure! \x7b\"a\":1\x7d done") (Json.str "x")
        = some (Json.obj [("a", Json.num 1)])
      ∧ resultEntry (fun _ => ApiOutcome.ok "Sure! \x7b\"a\":1\x7d done") (Json.str "x")
          = Json.obj [("quote", Json.str "x"), ("analysis", Json.obj [("a", Json.num 1)])] :=
  claim5_brace_extraction_fallback (fun _ => ApiOutcome.ok "Sure! \x7b\"a\":1\x7d done")
    (Json.str "x") "Sure! \x7b\"a\":1\x7d done" "\x7b\"a\":1\x7d" (Json.obj [("a", Json.num 1)])
    rfl (by with_unfolding_all rfl) (by with_unfolding_all rfl) (by with_unfolding_all rfl)

/-! ### Claim C6

The claim as frozen quantifies over every response text that "contains no
brace pair, or whose extracted substring is still not valid JSON" and asserts
the failure shape.  The first disjunct omits the precondition that strict
parsing fails: the text `true` contains no brace pair, yet `JSON.parse`
succeeds on it and the handler produces a success entry, refuting the claim as
stated.  The amended claim adds the strict-parse-failure precondition. -/

/-- Counterexample to C6 as stated: the response text `true` contains no
brace pair, but the item's entry is the success shape `{quote, analysis:
true}`, not the failure shape. -/
theorem claim6_counterexample :
    extractBraces "true" = none
      ∧ resultEntry (fun _ => ApiOutcome.ok "true") (Json.str "q")
          = Json.obj [("quote", Json.str "q"), ("analysis", Json.bool true)]
      ∧ resultEntry (fun _ => ApiOutcome.ok "true") (Json.str "q")
          ≠ Json.obj [("quote", Json.str "q"), ("error", Json.str failedMsg)] := by
  refine ⟨rfl, rfl, ?_⟩
  intro h
  have h2 : Json.obj [("quote", Json.str "q"), ("analysis", Json.bool true)]
      = Json.obj [("quote", Json.str "q"), ("error", Json.str failedMsg)] := h
  injection h2 with hfields
  injection hfields with h1 h23
  injection h23 with h3 h4
  injection h3 with hk hv
  exact absurd hk (by decide)

/-- C6 (amended: with the precondition that strict parsing fails).  When
strict parsing of the completion text fails and either the text has no
first-`\x7b`-before-last-`\x7d` pair or the extracted substring is still not
valid JSON, the item's entry is exactly the failure shape. -/
theorem claim6_unparsable_text_fails (api : String → ApiOutcome) (q : Json) (t : String)
    (happi : api (userMessage q) = ApiOutcome.ok t)
    (hstrict : jsonParse t = none)
    (hfb : ∀ sub, extractBraces t = some sub → jsonParse sub = none) :
    resultEntry api q = Json.obj [("quote", q), ("error", Json.str failedMsg)] := by
  unfold resultEntry analyzeQuote
  rw [happi]
  cases ht : (t == "") with
  | true => simp only [ht, eq_self_iff_true, if_true]
  | false =>
      simp only [ht, Bool.false_eq_true, if_false, hstrict]
      cases hext : extractBraces t with
      | none => simp only [hext]
      | some sub => simp only [hext, hfb sub hext]

/-- Witness for the amended C6 on a braceless unparsable text. -/
theorem claim6_unparsable_text_fails_witness :
    resultEntry (fun _ => ApiOutcome.ok "no json here") (Json.str "q")
      = Json.obj [("quote", Json.str "q"), ("error", Json.str failedMsg)] :=
  claim6_unparsable_text_fails (fun _ => ApiOutcome.ok "no json here") (Json.str "q")
    "no json here" rfl (by with_unfolding_all rfl)
    (fun sub h => Option.noConfusion h)

/-! ### Claim C8

The claim as frozen asserts that every successfully parsed value is passed
through as a success entry.  The handler's `if (analysis)` truthiness test
refutes this: the text `null` parses successfully to `null`, which is falsy,
so the item gets the failure shape.  The amended claim conditions the success
shape on the parsed value being truthy (not `null`, `false`, `0` or `""`);
truthy parsed values are indeed passed through with no schema validation. -/

/-- Counterexample to C8 as stated: the response text `null` parses
successfully, yet the item's entry is the failure shape, not
`{quote, analysis: null}`. -/
theorem claim8_counterexample :
    jsonParse "null" = some Json.null
      ∧ resultEntry (fun _ => ApiOutcome.ok "null") (Json.str "q")
          = Json.obj [("quote", Json.str "q"), ("error", Json.str failedMsg)]
      ∧ resultEntry (fun _ => ApiOutcome.ok "null") (Json.str "q")
          ≠ Json.obj [("quote", Json.str "q"), ("analysis", Json.null)] := by
  refine ⟨rfl, rfl, ?_⟩
  intro h
  have h2 : Json.obj [("quote", Json.str "q"), ("error", Json.str failedMsg)]
      = Json.obj [("quote", Json.str "q"), ("analysis", Json.null)] := h
  injection h2 with hfields
  injection hfields with h1 h23
  injection h23 with h3 h4
  injection h3 with hk hv
  exact absurd hk (by decide)

/-- C8 (amended: success only for truthy parsed values).  Whenever the
completion text parses to a value `v` — strictly or through the fallback — the
analyzer returns `v` unchanged and the entry is the success shape carrying `v`
with no schema validation exactly when `v` is truthy, and the failure shape
when `v` is falsy (`null`, `false`, `0` or `""`). -/
theorem claim8_truthy_passthrough (api : String → ApiOutcome) (q : Json) (t : String) (v : Json)
    (happi : api (userMessage q) = ApiOutcome.ok t)
    (hparse : jsonParse t = some v
      ∨ (jsonParse t = none ∧ ∃ sub, extractBraces t = some sub ∧ jsonParse sub = some v)) :
    analyzeQuote api q = some v
      ∧ resultEntry api q =
          (if jsTruthy v then Json.obj [("quote", q), ("analysis", v)]
           else Json.obj [("quote", q), ("error", Json.str failedMsg)]) := by
  have hne : (t == "") = false := by
    cases ht : (t == "") with
    | false => rfl
    | true =>
        rw [eq_of_beq ht] at hparse
        rcases hparse with h | ⟨_, sub, hext, _⟩
        · exact Option.noConfusion h
        · exact Option.noConfusion hext
  have hA : analyzeQuote api q = some v := by
    unfold analyzeQuote
    rw [happi]
    rcases hparse with h | ⟨hnone, sub, hext, hsub⟩
    · simp only [hne, Bool.false_eq_true, if_false, h]
    · simp only [hne, Bool.false_eq_true, if_false, hnone, hext]
      exact hsub
  refine ⟨hA, ?_⟩
  unfold resultEntry
  rw [hA]

/-- Witness for the amended C8 on a schema-mismatched but truthy object. -/
theorem claim8_truthy_passthrough_witness :
    analyzeQuote (fun _ => ApiOutcome.ok "\x7b\"wrong\":true\x7d") (Json.str "q")
        = some (Json.obj [("wrong", Json.bool true)])
      ∧ resultEntry (fun _ => ApiOutcome.ok "\x7b\"wrong\":true\x7d") (Json.str "q")
          = (if jsTruthy (Json.obj [("wrong", Json.bool true)])
             then Json.obj [("quote", Json.str "q"), ("analysis", Json.obj [("wrong", Json.bool true)])]
             else Json.obj [("quote", Json.str "q"), ("error", Json.str failedMsg)]) :=
  claim8_truthy_passthrough (fun _ => ApiOutcome.ok "\x7b\"wrong\":true\x7d") (Json.str "q")
    "\x7b\"wrong\":true\x7d" (Json.obj [("wrong", Json.bool true)]) rfl (Or.inl rfl)

/-! ### Claim C3 -/

/-- C3.  On a non-empty `quotes` array the response body is the mapped result
list of the first two quotes, and for every processed index `i` the entry's
`quote` field is exactly the input quote at `i`, whichever of the two shapes
the entry took. -/
theorem claim3_order_preserved (api : String → ApiOutcome) (body : Json) (vs : List Json)
    (hq : Json.getField body "quotes" = some (Json.arr vs)) (hne : vs ≠ []) :
    (postAnalyze api body).1.body
        = Json.obj [("results", Json.arr ((vs.take 2).map (resultEntry api)))]
      ∧ ∀ i, i < min vs.length 2 →
          Json.getField (((vs.take 2).map (resultEntry api)).getD i Json.null) "quote"
            = some (vs.getD i Json.null) := by
  refine ⟨by rw [postAnalyze_valid api body vs hq hne], ?_⟩
  intro i hi
  rw [map_take_resultEntry_getD api vs i hi]
  exact resultEntry_getField_quote api _

/-- Witness for C3 on a concrete two-quote request at index 0. -/
theorem claim3_order_preserved_witness :
    (postAnalyze (fun _ => ApiOutcome.ok "true") (mkRequest [Json.str "a", Json.str "b"])).1.body
        = Json.obj [("results", Json.arr
            (([Json.str "a", Json.str "b"].take 2).map (resultEntry (fun _ => ApiOutcome.ok "true"))))]
      ∧ ∀ i, i < min [Json.str "a", Json.str "b"].length 2 →
          Json.getField
              ((([Json.str "a", Json.str "b"].take 2).map
                  (resultEntry (fun _ => ApiOutcome.ok "true"))).getD i Json.null) "quote"
            = some ([Json.str "a", Json.str "b"].getD i Json.null) :=
  claim3_order_preserved (fun _ => ApiOutcome.ok "true")
    (mkRequest [Json.str "a", Json.str "b"]) [Json.str "a", Json.str "b"] rfl (by simp)

/-! ### Claim C10 -/

/-- C10.  No per-element type check exists: whatever the JSON type of the
elements, the first two are exactly the processed quotes, element `i`'s entry
is the analyzer result for that element, the analyzer consults the API only
through the fixed user-message template with the element string-coerced into
it, and the element is echoed back unchanged as the entry's `quote` field. -/
theorem claim10_no_type_check (api : String → ApiOutcome) (vs : List Json) (i : Nat)
    (hi : i < min vs.length 2) :
    (postAnalyze api (mkRequest vs)).2 = vs.take 2
      ∧ ((vs.take 2).map (resultEntry api)).getD i Json.null
          = resultEntry api (vs.getD i Json.null)
      ∧ (∀ api2, api2 (userMessage (vs.getD i Json.null)) = api (userMessage (vs.getD i Json.null))
          → resultEntry api2 (vs.getD i Json.null) = resultEntry api (vs.getD i Json.null))
      ∧ Json.getField (resultEntry api (vs.getD i Json.null)) "quote"
          = some (vs.getD i Json.null)
      ∧ userMessage (vs.getD i Json.null)
          = "Analyze the following quote and return the JSON object. Quote: \""
              ++ jsToString (vs.getD i Json.null) ++ "\"" := by
  have hne : vs ≠ [] := by
    intro h
    subst h
    simp at hi
  exact ⟨by rw [postAnalyze_valid api _ vs (getField_mkRequest vs) hne],
    map_take_resultEntry_getD api vs i hi,
    fun api2 h => resultEntry_congr api2 api _ h,
    resultEntry_getField_quote api _,
    rfl⟩

/-- Witness for C10 on a request whose only quote is the number 5. -/
theorem claim10_no_type_check_witness :
    (postAnalyze (fun _ => ApiOutcome.err) (mkRequest [Json.num 5])).2 = [Json.num 5].take 2
      ∧ (([Json.num 5].take 2).map (resultEntry (fun _ => ApiOutcome.err))).getD 0 Json.null
          = resultEntry (fun _ => ApiOutcome.err) ([Json.num 5].getD 0 Json.null)
      ∧ (∀ api2, api2 (userMessage ([Json.num 5].getD 0 Json.null))
            = (fun (_ : String) => ApiOutcome.err) (userMessage ([Json.num 5].getD 0 Json.null))
          → resultEntry api2 ([Json.num 5].getD 0 Json.null)
              = resultEntry (fun _ => ApiOutcome.err) ([Json.num 5].getD 0 Json.null))
      ∧ Json.getField (resultEntry (fun _ => ApiOutcome.err) ([Json.num 5].getD 0 Json.null)) "quote"
          = some ([Json.num 5].getD 0 Json.null)
      ∧ userMessage ([Json.num 5].getD 0 Json.null)
          = "Analyze the following quote and return the JSON object. Quote: \""
              ++ jsToString ([Json.num 5].getD 0 Json.null) ++ "\"" :=
  claim10_no_type_check (fun _ => ApiOutcome.err) [Json.num 5] 0 (by decide)

end QuoteApp
